import Mathlib

/-!
Verification of the FacePass biometric engine against its specification.

The pixel-level and list-level algorithms of `src/face_processor_cv.py`,
`src/face_processor.py` and the enrollment guard of `src/main.py` are
shallowly embedded below.  Machine floats are modelled by exact rationals
(`ℚ`) where the Python code performs only ring operations, comparisons and
division, and by real numbers (`ℝ`) where the code genuinely computes
square roots or arc tangents (Sobel gradient magnitudes and orientations,
Euclidean distances).  OpenCV primitives that are external library calls
(`cv2.resize`, CLAHE, colour-space conversion) are abstracted as an
explicit pipeline parameter producing the 100×100 grayscale and hue
planes that the handcrafted extractor consumes; everything downstream of
that pipeline is translated statement by statement from the source.
-/

namespace FacePass

/-- `config.FACE_RECOGNITION_TOLERANCE = 0.5` (src/config.py). -/
def FACE_RECOGNITION_TOLERANCE : ℚ := 1/2

/-- `config.BLINK_THRESHOLD = 0.25` (src/config.py). -/
def BLINK_THRESHOLD : ℚ := 1/4

/-- `config.LBP_THRESHOLD = 0.4` (src/config.py), the liveness threshold. -/
def LBP_THRESHOLD : ℚ := 2/5

/-- The `1e-7` guard added to every histogram mass before division. -/
def eps : ℚ := 1/10000000

/-- `SpoofDetector.eye_ar_consecutive_frames = 3` (src/face_processor.py). -/
def EYE_AR_CONSECUTIVE_FRAMES : ℕ := 3

/-- Cross-frame blink state of `SpoofDetector` (src/face_processor.py):
`frame_counter`, `blink_counter` and `previous_ear`. -/
structure BlinkState where
  frameCounter : ℕ
  blinkCounter : ℕ
  previousEar : Option ℚ
  deriving DecidableEq, Repr

/-- `SpoofDetector.detect_blink` (src/face_processor.py lines 116-127),
the part after the per-frame EAR value has been computed from the eye
landmarks: hysteresis update of the blink state.  Returns
`(blink_detected, new state)`. -/
def detect_blink_step (s : BlinkState) (ear : ℚ) : Bool × BlinkState :=
  if ear < BLINK_THRESHOLD then
    (false, ⟨s.frameCounter + 1, s.blinkCounter, some ear⟩)
  else
    if EYE_AR_CONSECUTIVE_FRAMES ≤ s.frameCounter then
      (true, ⟨0, s.blinkCounter + 1, some ear⟩)
    else
      (false, ⟨0, s.blinkCounter, some ear⟩)

/-- Feeding a sequence of per-frame EAR values through `detect_blink`,
starting from a freshly constructed `SpoofDetector`. -/
def run_blink_detector (ears : List ℚ) : BlinkState :=
  ears.foldl (fun s e => (detect_blink_step s e).2) ⟨0, 0, none⟩

/-- Result dictionary of the OpenCV `SpoofDetector.check_liveness`
(src/face_processor_cv.py). -/
structure LivenessResultCV where
  textureScore : ℚ
  reflectionScore : ℚ
  blurScore : ℚ
  confidence : ℚ
  isLive : Bool
  deriving DecidableEq, Repr

/-- The fail-open dictionary returned by the OpenCV `check_liveness` on a
degenerate crop or a scorer error: every score 1.0 and `is_live = True`. -/
def failOpenCV : LivenessResultCV := ⟨1, 1, 1, 1, true⟩

/-- `SpoofDetector.check_liveness` of src/face_processor_cv.py
(lines 145-185).  `cropSize` is `face_image.size` (0 for `None`/empty);
`scores` is the outcome of the three scorers inside the `try` block —
`Except.error` when any of them raises, `Except.ok` with the
`(texture, reflection, blur)` values otherwise (the scorers themselves
are float/OpenCV computations and are abstracted as this outcome). -/
def check_liveness_cv (cropSize : ℕ) (scores : Except String (ℚ × ℚ × ℚ)) :
    LivenessResultCV :=
  if cropSize = 0 then failOpenCV
  else
    match scores with
    | .error _ => failOpenCV
    | .ok (t, r, b) =>
      let conf := t * (2/5) + r * (3/10) + b * (3/10)
      ⟨t, r, b, conf, decide (LBP_THRESHOLD ≤ conf)⟩

/-- Result dictionary of the dlib-based `SpoofDetector.check_liveness`
(src/face_processor.py): no blur score, optional EAR and blink count. -/
structure LivenessResultD where
  textureScore : ℚ
  reflectionScore : ℚ
  ear : Option ℚ
  blinkCount : Option ℕ
  confidence : ℚ
  isLive : Bool
  deriving DecidableEq, Repr

/-- `SpoofDetector.check_liveness` of src/face_processor.py
(lines 207-238).  This version has no degenerate-crop guard and no
`try`/`except`: a scorer error (e.g. `cv2.cvtColor` raising on an empty
crop) propagates to the caller, modelled as `Except.error`.
`earFromLandmarks` is the averaged EAR computed from the eye landmarks
when a landmark dictionary with both eyes is passed, `none` when
`face_landmarks` is falsy; the blink state is threaded through. -/
def check_liveness_dlib (st : BlinkState) (scores : Except String (ℚ × ℚ))
    (earFromLandmarks : Option ℚ) :
    Except String (LivenessResultD × BlinkState) :=
  match scores with
  | .error e => .error e
  | .ok (t, r) =>
    let conf := t * (3/5) + r * (2/5)
    match earFromLandmarks with
    | some e =>
      let st2 := (detect_blink_step st e).2
      .ok (⟨t, r, some e, some st2.blinkCounter, conf,
            decide (LBP_THRESHOLD ≤ conf)⟩, st2)
    | none =>
      .ok (⟨t, r, none, none, conf, decide (LBP_THRESHOLD ≤ conf)⟩, st)

/-- `FaceProcessorCV.compare_faces` similarity (src/face_processor_cv.py
lines 387-390): histogram intersection normalised by the enrolled
vector's own mass plus the `1e-7` guard. -/
def similarity (known probe : List ℚ) : ℚ :=
  let intersection := (List.zipWith min known probe).sum
  let maxIntersection := (List.zipWith min known known).sum
  intersection / (maxIntersection + eps)

/-- `FaceProcessorCV.compare_faces` (src/face_processor_cv.py
lines 378-395): `(is_match, similarity)`. -/
def compare_faces (known probe : List ℚ) : Bool × ℚ :=
  (decide (FACE_RECOGNITION_TOLERANCE ≤ similarity known probe),
   similarity known probe)

/-- The match dictionary returned by `FaceProcessorCV.identify_face`. -/
structure MatchResult where
  userId : ℤ
  confidence : ℚ
  distance : ℚ
  deriving DecidableEq, Repr

/-- One iteration of the scan loop of `FaceProcessorCV.identify_face`
(src/face_processor_cv.py lines 419-423): compare the probe with one
enumerated gallery entry and keep the strictly better
`(best_match_index, best_similarity)`. -/
def scan_step (probe : List ℚ) (st : ℤ × ℚ) (p : ℕ × List ℚ) : ℤ × ℚ :=
  let sim := (compare_faces p.2 probe).2
  if st.2 < sim then ((p.1 : ℤ), sim) else st

/-- The linear scan of `FaceProcessorCV.identify_face`
(src/face_processor_cv.py lines 416-423): fold over
`enumerate(self.known_face_features)` tracking
`(best_match_index, best_similarity)`, initialised to `(-1, 0.0)` and
updated on a strict improvement. -/
def best_scan (gallery : List (List ℚ)) (probe : List ℚ) : ℤ × ℚ :=
  gallery.enum.foldl (scan_step probe) (-1, 0)

/-- `FaceProcessorCV.identify_face` (src/face_processor_cv.py
lines 397-432).  `gallery`/`ids` are `known_face_features` /
`known_face_ids`; `probe?` is the outcome of
`extract_face_features` on the requested face location (`none` when the
extraction failed — the detection path is upstream of this claim). -/
def identify_face (gallery : List (List ℚ)) (ids : List ℤ)
    (probe? : Option (List ℚ)) : Option MatchResult :=
  if gallery = [] then none
  else
    match probe? with
    | none => none
    | some f =>
      let bs := best_scan gallery f
      if 0 ≤ bs.1 ∧ FACE_RECOGNITION_TOLERANCE ≤ bs.2 then
        some ⟨ids.getD bs.1.toNat 0, bs.2, 1 - bs.2⟩
      else none

/-- `FaceProcessorCV.load_known_faces` (src/face_processor_cv.py
lines 434-455).  `prev` is the previous gallery state, discarded by the
initial `self.known_face_features = []` / `self.known_face_ids = []`;
each user is an `(id, deserialized encoding)` pair (deserialisation of
the raw float32 bytes is length-preserving and is abstracted), appended
to both parallel lists only when the encoding is truthy and its length
is the expected 132. -/
def load_known_faces (_prev : List (List ℚ) × List ℤ)
    (users : List (ℤ × List ℚ)) : List (List ℚ) × List ℤ :=
  users.foldl
    (fun acc u =>
      if u.2 ≠ [] then
        if u.2.length = 132 then (acc.1 ++ [u.2], acc.2 ++ [u.1]) else acc
      else acc)
    ([], [])

/-- `FaceProcessor.load_known_faces` (src/face_processor.py
lines 384-402): same contract with the dlib 128-length encodings. -/
def load_known_faces_dlib (_prev : List (List ℚ) × List ℤ)
    (users : List (ℤ × List ℚ)) : List (List ℚ) × List ℤ :=
  users.foldl
    (fun acc u =>
      if u.2 ≠ [] then
        if u.2.length = 128 then (acc.1 ++ [u.2], acc.2 ++ [u.1]) else acc
      else acc)
    ([], [])

/-- The dlib tolerance cast to the reals (`config.FACE_RECOGNITION_TOLERANCE`). -/
noncomputable def tolR : ℝ := 1/2

/-- The match dictionary returned by `FaceProcessor.identify_face`
(dlib strategy): the confidence and distance are genuine floats built
from a Euclidean norm, modelled in `ℝ`. -/
structure MatchResultR where
  userId : ℤ
  confidence : ℝ
  distance : ℝ

/-- `face_recognition.face_distance` for one gallery entry: the Euclidean
norm of the difference of the two encodings. -/
noncomputable def face_distance (known probe : List ℚ) : ℝ :=
  Real.sqrt (List.zipWith (fun a b => (((a - b : ℚ) : ℝ))^2) known probe).sum

/-- `np.argmin`: index of the first occurrence of the minimum. -/
noncomputable def argmin_idx : List ℝ → ℕ
  | [] => 0
  | x :: xs =>
    if xs = [] then 0
    else if x ≤ xs.getD (argmin_idx xs) 0 then 0 else argmin_idx xs + 1

/-- `FaceProcessor.identify_face` (src/face_processor.py lines 343-382,
dlib strategy): distances to the whole gallery, `np.argmin`, match iff
the best distance is within the tolerance, confidence
`max(0, 1 - distance/tolerance)`. -/
noncomputable def identify_face_dlib (gallery : List (List ℚ)) (ids : List ℤ)
    (probe? : Option (List ℚ)) : Option MatchResultR :=
  if gallery = [] then none
  else
    match probe? with
    | none => none
    | some f =>
      let ds := gallery.map (fun k => face_distance k f)
      if ds = [] then none
      else
        let bi := argmin_idx ds
        let bd := ds.getD bi 0
        if bd ≤ tolR then
          some ⟨ids.getD bi 0, max 0 (1 - bd / tolR), bd⟩
        else none

/-- The duplicate-identity guard of `register_user` (src/main.py
lines 204-213): given the result of `identify_face` against the current
gallery and the database lookup `UserOperations.get_user_by_id`
(abstracted as `lookup`, returning the conflicting user's name when the
id resolves), returns `some name` exactly when the registration is
rejected. -/
def register_guard (existingMatch : Option MatchResult)
    (lookup : ℤ → Option String) : Option String :=
  match existingMatch with
  | some m =>
    if (7 : ℚ)/10 ≤ m.confidence then
      match lookup m.userId with
      | some name => some name
      | none => none
    else none
  | none => none

/-- The enrollment path of `register_user` (src/main.py) around the
duplicate guard: the probe encoding (`none` when `encode_face` failed,
which raises before the guard), the duplicate check against the
*current* gallery, then — only on acceptance — the insertion of the new
`(encoding, id)` entry via the database write and `load_known_faces`. -/
def register_user (gallery : List (List ℚ)) (ids : List ℤ)
    (lookup : ℤ → Option String) (encoding? : Option (List ℚ)) (newId : ℤ) :
    Except String (List (List ℚ) × List ℤ) :=
  match encoding? with
  | none => .error "Could not generate face encoding"
  | some enc =>
    match register_guard (identify_face gallery ids (some enc)) lookup with
    | some name => .error ("This face is already registered as " ++ name)
    | none => .ok (gallery ++ [enc], ids ++ [newId])

/-- A 100×100 grayscale plane (uint8 pixels), the output of
`cv2.cvtColor(face_normalized, cv2.COLOR_BGR2GRAY)` on the resized,
lighting-normalised crop.  Only indices below 100 are ever read. -/
abbrev Gray := ℕ → ℕ → Fin 256

/-- The hue plane of `cv2.cvtColor(face_normalized, cv2.COLOR_BGR2HSV)`:
uint8 hue values lie in `[0, 180)`. -/
abbrev Hue := ℕ → ℕ → Fin 180

/-- `FaceProcessorCV._calculate_lbp` (src/face_processor_cv.py
lines 345-363): for interior pixels (`range(1, 99)` in both axes) the
8-bit code from the fixed clockwise neighbour comparisons
(`neighbour >= center` sets the bit); the `np.zeros_like` border stays 0. -/
def calculate_lbp (g : Gray) (i j : ℕ) : ℕ :=
  if 1 ≤ i ∧ i ≤ 98 ∧ 1 ≤ j ∧ j ≤ 98 then
    (if g i j ≤ g (i-1) (j-1) then 128 else 0) +
    (if g i j ≤ g (i-1) j then 64 else 0) +
    (if g i j ≤ g (i-1) (j+1) then 32 else 0) +
    (if g i j ≤ g i (j+1) then 16 else 0) +
    (if g i j ≤ g (i+1) (j+1) then 8 else 0) +
    (if g i j ≤ g (i+1) j then 4 else 0) +
    (if g i j ≤ g (i+1) (j-1) then 2 else 0) +
    (if g i j ≤ g i (j-1) then 1 else 0)
  else 0

/-- Bin of one pixel's LBP code under
`np.histogram(lbp, bins=64, range=(0, 256))`: codes are grouped 4-to-1;
the code is an 8-bit value, so the bin index is below 64. -/
def lbpBin (g : Gray) (p : Fin 100 × Fin 100) : Fin 64 :=
  ⟨calculate_lbp g p.1 p.2 / 4, by
    have hcode : calculate_lbp g p.1 p.2 < 256 := by
      unfold calculate_lbp
      split
      · have h128 : (if g p.1 p.2 ≤ g (p.1-1) (p.2-1) then 128 else 0) ≤ 128 := by
          split <;> omega
        have h64 : (if g p.1 p.2 ≤ g (p.1-1) p.2 then 64 else 0) ≤ 64 := by
          split <;> omega
        have h32 : (if g p.1 p.2 ≤ g (p.1-1) (p.2+1) then 32 else 0) ≤ 32 := by
          split <;> omega
        have h16 : (if g p.1 p.2 ≤ g p.1 (p.2+1) then 16 else 0) ≤ 16 := by
          split <;> omega
        have h8 : (if g p.1 p.2 ≤ g (p.1+1) (p.2+1) then 8 else 0) ≤ 8 := by
          split <;> omega
        have h4 : (if g p.1 p.2 ≤ g (p.1+1) p.2 then 4 else 0) ≤ 4 := by
          split <;> omega
        have h2 : (if g p.1 p.2 ≤ g (p.1+1) (p.2-1) then 2 else 0) ≤ 2 := by
          split <;> omega
        have h1 : (if g p.1 p.2 ≤ g p.1 (p.2-1) then 1 else 0) ≤ 1 := by
          split <;> omega
        omega
      · omega
    omega⟩

/-- Histogram count of one LBP bin over the 100×100 plane. -/
def lbpCount (g : Gray) (b : Fin 64) : ℕ :=
  ∑ p : Fin 100 × Fin 100, if lbpBin g p = b then 1 else 0

/-- `lbp_hist.sum()`, the mass the code divides by. -/
def lbpTotal (g : Gray) : ℕ := ∑ b : Fin 64, lbpCount g b

/-- One entry of the L1-normalised LBP histogram:
`lbp_hist /= (lbp_hist.sum() + 1e-7)`. -/
def lbpNorm (g : Gray) (b : Fin 64) : ℚ :=
  (lbpCount g b : ℚ) / ((lbpTotal g : ℚ) + eps)

/-- Bin of one grayscale pixel under
`np.histogram(gray, bins=32, range=(0, 256))`. -/
def grayBin (g : Gray) (p : Fin 100 × Fin 100) : Fin 32 :=
  ⟨(g p.1 p.2).val / 8, by have := (g p.1 p.2).isLt; omega⟩

/-- Histogram count of one grayscale-intensity bin. -/
def grayCount (g : Gray) (b : Fin 32) : ℕ :=
  ∑ p : Fin 100 × Fin 100, if grayBin g p = b then 1 else 0

/-- `gray_hist.sum()`. -/
def grayTotal (g : Gray) : ℕ := ∑ b : Fin 32, grayCount g b

/-- One entry of the L1-normalised grayscale histogram. -/
def grayNorm (g : Gray) (b : Fin 32) : ℚ :=
  (grayCount g b : ℚ) / ((grayTotal g : ℚ) + eps)

/-- Bin of one hue pixel under
`np.histogram(h_channel, bins=18, range=(0, 180))`. -/
def hueBin (hu : Hue) (p : Fin 100 × Fin 100) : Fin 18 :=
  ⟨(hu p.1 p.2).val / 10, by have := (hu p.1 p.2).isLt; omega⟩

/-- Histogram count of one hue bin. -/
def hueCount (hu : Hue) (b : Fin 18) : ℕ :=
  ∑ p : Fin 100 × Fin 100, if hueBin hu p = b then 1 else 0

/-- `color_hist.sum()`. -/
def hueTotal (hu : Hue) : ℕ := ∑ b : Fin 18, hueCount hu b

/-- One entry of the L1-normalised hue histogram. -/
def hueNorm (hu : Hue) (b : Fin 18) : ℚ :=
  (hueCount hu b : ℚ) / ((hueTotal hu : ℚ) + eps)

/-- `BORDER_REFLECT_101`, the default OpenCV border used by `cv2.Sobel`:
index −1 reflects to 1, index 100 reflects to 98. -/
def reflect101 (x : ℤ) : ℕ :=
  (if x < 0 then -x else if 100 ≤ x then 198 - x else x).toNat

/-- Pixel read with the Sobel border handling, as an integer. -/
def px (g : Gray) (x y : ℤ) : ℤ := ((g (reflect101 x) (reflect101 y)).val : ℤ)

/-- `cv2.Sobel(gray, CV_32F, 1, 0, ksize=3)`: horizontal derivative,
kernel `[[-1,0,1],[-2,0,2],[-1,0,1]]` (exact on integer pixels). -/
def sobelGx (g : Gray) (i j : ℕ) : ℤ :=
  (px g ((i:ℤ)-1) ((j:ℤ)+1) - px g ((i:ℤ)-1) ((j:ℤ)-1)) +
  2 * (px g (i:ℤ) ((j:ℤ)+1) - px g (i:ℤ) ((j:ℤ)-1)) +
  (px g ((i:ℤ)+1) ((j:ℤ)+1) - px g ((i:ℤ)+1) ((j:ℤ)-1))

/-- `cv2.Sobel(gray, CV_32F, 0, 1, ksize=3)`: vertical derivative. -/
def sobelGy (g : Gray) (i j : ℕ) : ℤ :=
  (px g ((i:ℤ)+1) ((j:ℤ)-1) - px g ((i:ℤ)-1) ((j:ℤ)-1)) +
  2 * (px g ((i:ℤ)+1) (j:ℤ) - px g ((i:ℤ)-1) (j:ℤ)) +
  (px g ((i:ℤ)+1) ((j:ℤ)+1) - px g ((i:ℤ)-1) ((j:ℤ)+1))

/-- `np.sqrt(gx**2 + gy**2)`, the per-pixel gradient magnitude. -/
noncomputable def gradMag (g : Gray) (i j : ℕ) : ℝ :=
  Real.sqrt (((sobelGx g i j : ℝ))^2 + ((sobelGy g i j : ℝ))^2)

/-- `np.arctan2(gy, gx) * 180 / np.pi`, folded into `[0, 180]` by
`angle[angle < 0] += 180`.  `arctan2` is `Complex.arg` of `gx + gy·i`. -/
noncomputable def gradAngle (g : Gray) (i j : ℕ) : ℝ :=
  let a := Complex.arg ⟨(sobelGx g i j : ℝ), (sobelGy g i j : ℝ)⟩ * 180 / Real.pi
  if a < 0 then a + 180 else a

/-- Bin of one pixel under
`np.histogram(angle, bins=18, range=(0, 180), weights=magnitude)`:
width-10 bins, the right edge 180 falling into the last bin. -/
noncomputable def hogBin (g : Gray) (p : Fin 100 × Fin 100) : Fin 18 :=
  ⟨min (⌊gradAngle g p.1 p.2 / 10⌋.toNat) 17,
   Nat.lt_succ_of_le (min_le_right _ _)⟩

/-- Magnitude-weighted mass of one orientation bin. -/
noncomputable def hogWeight (g : Gray) (b : Fin 18) : ℝ :=
  ∑ p : Fin 100 × Fin 100, if hogBin g p = b then gradMag g p.1 p.2 else 0

/-- `hog_hist.sum()`. -/
noncomputable def hogTotal (g : Gray) : ℝ := ∑ b : Fin 18, hogWeight g b

/-- One entry of the normalised gradient-orientation histogram:
`hog_hist /= (hog_hist.sum() + 1e-7)`. -/
noncomputable def hogNorm (g : Gray) (b : Fin 18) : ℝ :=
  hogWeight g b / (hogTotal g + (1/10000000 : ℝ))

/-- The 132-entry descriptor of `extract_face_features`
(src/face_processor_cv.py lines 307-343): LBP histogram (64), grayscale
histogram (32), gradient-orientation histogram (18), hue histogram (18),
concatenated in this order. -/
noncomputable def descriptor (g : Gray) (hu : Hue) : List ℝ :=
  (List.ofFn fun b : Fin 64 => ((lbpNorm g b : ℚ) : ℝ)) ++
  (List.ofFn fun b : Fin 32 => ((grayNorm g b : ℚ) : ℝ)) ++
  (List.ofFn fun b : Fin 18 => hogNorm g b) ++
  (List.ofFn fun b : Fin 18 => ((hueNorm hu b : ℚ) : ℝ))

/-- `FaceProcessorCV.extract_face_features` (src/face_processor_cv.py
lines 274-343).  The image contributes its height/width `h`, `w` to the
clamping; `pipe` abstracts the external OpenCV steps applied to the
surviving crop — `cv2.resize` to 100×100, the lighting normaliser and
the two colour-space conversions — mapping the clamped
`(top, bottom, left, right)` rectangle to the grayscale and hue planes
the histograms are computed from.  The location is the source's
`(top, right, bottom, left)` tuple. -/
noncomputable def extract_face_features (pipe : ℤ → ℤ → ℤ → ℤ → Gray × Hue)
    (h w : ℕ) (loc : ℤ × ℤ × ℤ × ℤ) : Option (List ℝ) :=
  let top := max 0 (min loc.1 ((h:ℤ) - 1))
  let bottom := max 0 (min loc.2.2.1 (h:ℤ))
  let left := max 0 (min loc.2.2.2 ((w:ℤ) - 1))
  let right := max 0 (min loc.2.1 (w:ℤ))
  if bottom ≤ top ∨ right ≤ left then none
  else if (bottom - top) * (right - left) = 0 ∨
          bottom - top < 10 ∨ right - left < 10 then none
  else
    some (descriptor (pipe top bottom left right).1
                     (pipe top bottom left right).2)

/-- The grayscale plane of an all-black crop: `cv2.resize` of a constant
image is constant, CLAHE / histogram equalisation map a constant
luminance plane to a constant one, and `cvtColor` of black yields
intensity 0. -/
def constGray : Gray := fun _ _ => 0

/-- The hue plane of an all-black crop (hue 0). -/
def constHue : Hue := fun _ _ => 0

/-- The resize/normalise/convert pipeline on an all-black source image. -/
def constPipe : ℤ → ℤ → ℤ → ℤ → Gray × Hue := fun _ _ _ _ => (constGray, constHue)

/-! ## Theorems -/

theorem zipWith_min_self (l : List ℚ) : List.zipWith min l l = l := by
  induction l with
  | nil => rfl
  | cons a t ih => simp [List.zipWith, ih]

theorem similarity_self (v : List ℚ) :
    similarity v v = v.sum / (v.sum + eps) := by
  unfold similarity
  rw [zipWith_min_self]

/-- C2 (amended): the self-similarity computed by `compare_faces` is not
exactly 1 but `S/(S + 1e-7)` where `S` is the vector's total mass; for
every vector of mass at least 1 (in particular a descriptor of
L1-normalised histograms) it is within `1e-7` of 1, and float32
evaluation rounds it to 1.0. -/
theorem compare_faces_self_spec (v : List ℚ) :
    (compare_faces v v).2 = v.sum / (v.sum + eps) ∧
    (1 ≤ v.sum → |1 - (compare_faces v v).2| ≤ eps) := by
  have h1 : (compare_faces v v).2 = v.sum / (v.sum + eps) := by
    simp [compare_faces, similarity_self]
  refine ⟨h1, fun hs => ?_⟩
  rw [h1]
  have hpos : (0:ℚ) < v.sum + eps := by unfold eps; linarith
  have hle : v.sum / (v.sum + eps) ≤ 1 := by
    rw [div_le_one hpos]; unfold eps; linarith
  have heq : 1 - v.sum / (v.sum + eps) = eps / (v.sum + eps) := by
    field_simp
  rw [abs_of_nonneg (by linarith), heq, div_le_iff₀ hpos]
  unfold eps
  nlinarith

/-- C2 counterexample: for the concrete vector `[1]` the self-similarity
is `10^7/(10^7+1)`, not exactly 1 as the claim states. -/
theorem compare_faces_self_cex : (compare_faces [(1:ℚ)] [(1:ℚ)]).2 ≠ 1 := by
  norm_num [compare_faces, similarity, eps]

theorem compare_faces_self_spec_witness :
    (1:ℚ) ≤ [(1:ℚ)].sum ∧ |1 - (compare_faces [(1:ℚ)] [(1:ℚ)]).2| ≤ eps :=
  ⟨by norm_num, (compare_faces_self_spec [(1:ℚ)]).2 (by norm_num)⟩

/-- C6: hysteresis blink detection.  While the EAR is below the
threshold the consecutive-frame counter increments; on return to or
above the threshold exactly one blink is registered iff the counter
reached 3, and the counter resets either way.  The sequence
`[0.35, 0.35, 0.10, 0.10, 0.10, 0.35]` registers exactly one blink, at
the final frame, and `[0.35, 0.10, 0.35]` registers none
(threshold 0.25, consecutive frames 3). -/
theorem detect_blink_spec :
    (∀ s ear, ear < BLINK_THRESHOLD →
      detect_blink_step s ear =
        (false, ⟨s.frameCounter + 1, s.blinkCounter, some ear⟩)) ∧
    (∀ s ear, BLINK_THRESHOLD ≤ ear →
      detect_blink_step s ear =
        (decide (EYE_AR_CONSECUTIVE_FRAMES ≤ s.frameCounter),
         ⟨0, s.blinkCounter +
              (if EYE_AR_CONSECUTIVE_FRAMES ≤ s.frameCounter then 1 else 0),
          some ear⟩)) ∧
    (run_blink_detector [7/20, 7/20, 1/10, 1/10, 1/10, 7/20]).blinkCounter
      = 1 ∧
    (detect_blink_step (run_blink_detector [7/20, 7/20, 1/10, 1/10, 1/10])
      (7/20)).1 = true ∧
    (run_blink_detector [7/20, 1/10, 7/20]).blinkCounter = 0 := by
  refine ⟨?_, ?_,
    by norm_num [run_blink_detector, detect_blink_step, BLINK_THRESHOLD,
      EYE_AR_CONSECUTIVE_FRAMES],
    by norm_num [run_blink_detector, detect_blink_step, BLINK_THRESHOLD,
      EYE_AR_CONSECUTIVE_FRAMES],
    by norm_num [run_blink_detector, detect_blink_step, BLINK_THRESHOLD,
      EYE_AR_CONSECUTIVE_FRAMES]⟩
  · intro s ear hlt
    simp [detect_blink_step, hlt]
  · intro s ear hge
    have h2 : ¬ ear < BLINK_THRESHOLD := not_lt.mpr hge
    by_cases h3 : EYE_AR_CONSECUTIVE_FRAMES ≤ s.frameCounter
    · simp [detect_blink_step, h2, h3]
    · simp [detect_blink_step, h2, h3]

theorem detect_blink_spec_witness :
    detect_blink_step ⟨0, 0, none⟩ (1/10)
      = (false, ⟨1, 0, some (1/10)⟩) ∧
    detect_blink_step ⟨3, 0, none⟩ (7/20) = (true, ⟨0, 1, some (7/20)⟩) := by
  constructor
  · exact detect_blink_spec.1 ⟨0, 0, none⟩ (1/10)
      (by norm_num [BLINK_THRESHOLD])
  · have h := detect_blink_spec.2.1 ⟨3, 0, none⟩ (7/20)
      (by norm_num [BLINK_THRESHOLD])
    rw [h]
    simp [EYE_AR_CONSECUTIVE_FRAMES]

/-- C3 (amended): the OpenCV `check_liveness` fails open — on a
degenerate/empty crop, or when any scorer inside the `try` raises, it
returns the dictionary with `is_live = True` and `confidence = 1.0`
and raises nothing; the dlib `check_liveness` has no such guard and
propagates a scorer error to the caller. -/
theorem check_liveness_fail_open :
    (∀ scores, check_liveness_cv 0 scores = failOpenCV) ∧
    (∀ n e, check_liveness_cv n (.error e) = failOpenCV) ∧
    failOpenCV.isLive = true ∧ failOpenCV.confidence = 1 ∧
    (∀ st lm e, check_liveness_dlib st (.error e) lm = .error e) := by
  refine ⟨fun scores => by simp [check_liveness_cv], fun n e => ?_, rfl, rfl,
    fun st lm e => rfl⟩
  unfold check_liveness_cv
  split <;> rfl

/-- C3 counterexample: the dlib `SpoofDetector.check_liveness` called on
an empty crop lets the `cv2.cvtColor` error escape (there is no guard
and no `try`), contradicting the claim that the check returns
`is_live = True`, `confidence = 1.0` and raises nothing. -/
theorem check_liveness_dlib_raises_cex :
    check_liveness_dlib ⟨0, 0, none⟩
        (.error "OpenCV cvtColor: empty source crop") none
      = .error "OpenCV cvtColor: empty source crop" ∧
    (check_liveness_dlib ⟨0, 0, none⟩
        (.error "OpenCV cvtColor: empty source crop") none).isOk = false :=
  ⟨rfl, rfl⟩

/-- C7: the fused liveness confidence is `texture·0.6 + reflection·0.4`
when no blur score exists (dlib version) and
`texture·0.4 + reflection·0.3 + blur·0.3` when it does (OpenCV
version); the blink/EAR signal contributes no weight (the dlib
confidence is the same for every landmark input and blink state), and
`is_live` holds iff the fused confidence reaches the fixed threshold. -/
theorem liveness_fusion_spec :
    (∀ n t r b, n ≠ 0 →
      (check_liveness_cv n (.ok (t, r, b))).confidence
          = t * (2/5) + r * (3/10) + b * (3/10) ∧
      ((check_liveness_cv n (.ok (t, r, b))).isLive = true ↔
        LBP_THRESHOLD ≤ t * (2/5) + r * (3/10) + b * (3/10))) ∧
    (∀ st t r lm res st2,
      check_liveness_dlib st (.ok (t, r)) lm = .ok (res, st2) →
      res.confidence = t * (3/5) + r * (2/5) ∧
      (res.isLive = true ↔ LBP_THRESHOLD ≤ t * (3/5) + r * (2/5))) := by
  constructor
  · intro n t r b hn
    constructor
    · simp [check_liveness_cv, hn]
    · simp [check_liveness_cv, hn]
  · intro st t r lm res st2 hok
    cases lm with
    | none =>
      simp only [check_liveness_cv, check_liveness_dlib, Except.ok.injEq,
        Prod.mk.injEq] at hok
      obtain ⟨rfl, rfl⟩ := hok
      exact ⟨rfl, by simp⟩
    | some e =>
      simp only [check_liveness_cv, check_liveness_dlib, Except.ok.injEq,
        Prod.mk.injEq] at hok
      obtain ⟨rfl, rfl⟩ := hok
      exact ⟨rfl, by simp⟩

theorem liveness_fusion_spec_witness :
    (check_liveness_cv 1 (.ok (1, 1, 1))).confidence
        = 1 * (2/5) + 1 * (3/10) + 1 * (3/10) ∧
    (1:ℚ) = 1 * (3/5) + 1 * (2/5) := by
  constructor
  · exact (liveness_fusion_spec.1 1 1 1 1 (by decide)).1
  · have h := (liveness_fusion_spec.2 ⟨0, 0, none⟩ 1 1 none
      ⟨1, 1, none, none, 1, true⟩ ⟨0, 0, none⟩
      (by norm_num [check_liveness_dlib, LBP_THRESHOLD])).1
    simpa using h

theorem load_foldl_eq (n : ℕ) (hn : n ≠ 0) (users : List (ℤ × List ℚ)) :
    ∀ acc : List (List ℚ) × List ℤ,
      users.foldl
        (fun acc u =>
          if u.2 ≠ [] then
            if u.2.length = n then (acc.1 ++ [u.2], acc.2 ++ [u.1]) else acc
          else acc) acc
      = (acc.1 ++ (users.filter fun u => decide (u.2.length = n)).map Prod.snd,
         acc.2 ++ (users.filter fun u => decide (u.2.length = n)).map Prod.fst)
    := by
  induction users with
  | nil => intro acc; simp
  | cons u us ih =>
    intro acc
    simp only [List.foldl_cons]
    by_cases h0 : u.2 = []
    · have h1 : (if u.2 ≠ [] then
          if u.2.length = n then (acc.1 ++ [u.2], acc.2 ++ [u.1]) else acc
          else acc) = acc := by simp [h0]
      have h2 : decide (u.2.length = n) = false := by
        simp only [h0, List.length_nil, decide_eq_false_iff_not]
        omega
      rw [h1, ih acc, List.filter_cons, h2]
      simp
    · by_cases hl : u.2.length = n
      · have h1 : (if u.2 ≠ [] then
            if u.2.length = n then (acc.1 ++ [u.2], acc.2 ++ [u.1]) else acc
            else acc) = (acc.1 ++ [u.2], acc.2 ++ [u.1]) := by simp [h0, hl]
        have h2 : decide (u.2.length = n) = true := by simp [hl]
        rw [h1, ih, List.filter_cons, h2]
        simp [List.append_assoc]
      · have h1 : (if u.2 ≠ [] then
            if u.2.length = n then (acc.1 ++ [u.2], acc.2 ++ [u.1]) else acc
            else acc) = acc := by simp [h0, hl]
        have h2 : decide (u.2.length = n) = false := by simp [hl]
        rw [h1, ih acc, List.filter_cons, h2]
        simp

/-- C5: `load_known_faces` discards the whole previous gallery (the
result is the same whatever was loaded before) and afterwards both
parallel lists hold exactly the input entries whose deserialised
encoding has the expected length for the strategy (132 for the OpenCV
histogram features, 128 for the dlib embeddings), in input order;
every entry of the wrong length is skipped while loading continues. -/
theorem load_known_faces_spec (prev prev2 : List (List ℚ) × List ℤ)
    (users : List (ℤ × List ℚ)) :
    load_known_faces prev users = load_known_faces prev2 users ∧
    (load_known_faces prev users).1
      = (users.filter fun u => decide (u.2.length = 132)).map Prod.snd ∧
    (load_known_faces prev users).2
      = (users.filter fun u => decide (u.2.length = 132)).map Prod.fst ∧
    (load_known_faces_dlib prev users).1
      = (users.filter fun u => decide (u.2.length = 128)).map Prod.snd ∧
    (load_known_faces_dlib prev users).2
      = (users.filter fun u => decide (u.2.length = 128)).map Prod.fst := by
  have h132 := load_foldl_eq 132 (by norm_num) users ([], [])
  have h128 := load_foldl_eq 128 (by norm_num) users ([], [])
  refine ⟨rfl, ?_, ?_, ?_, ?_⟩
  · unfold load_known_faces; rw [h132]; simp
  · unfold load_known_faces; rw [h132]; simp
  · unfold load_known_faces_dlib; rw [h128]; simp
  · unfold load_known_faces_dlib; rw [h128]; simp

theorem scan_step_eval (probe : List ℚ) (st : ℤ × ℚ) (n : ℕ) (k : List ℚ) :
    scan_step probe st (n, k)
      = if st.2 < similarity k probe then ((n : ℤ), similarity k probe)
        else st := rfl

/-- Invariant of the scan loop: starting the fold at index `n` with the
running state `(i0, s0)`, the final similarity dominates `s0` and every
gallery similarity; when some entry strictly beats `s0`, the final
similarity is attained in the gallery and the final index is `n` plus
the position of its first occurrence; when nothing beats `s0`, the
state is unchanged. -/
theorem scan_go_spec (probe : List ℚ) :
    ∀ (gallery : List (List ℚ)) (n : ℕ) (i0 : ℤ) (s0 : ℚ),
      s0 ≤ ((gallery.enumFrom n).foldl (scan_step probe) (i0, s0)).2 ∧
      (∀ k ∈ gallery, similarity k probe
        ≤ ((gallery.enumFrom n).foldl (scan_step probe) (i0, s0)).2) ∧
      ((∃ k ∈ gallery, s0 < similarity k probe) →
        ((gallery.enumFrom n).foldl (scan_step probe) (i0, s0)).2
            ∈ gallery.map (fun k => similarity k probe) ∧
        ((gallery.enumFrom n).foldl (scan_step probe) (i0, s0)).1
          = (n : ℤ) + (((gallery.map fun k => similarity k probe).indexOf
              ((gallery.enumFrom n).foldl (scan_step probe) (i0, s0)).2 : ℕ)
                : ℤ)) ∧
      ((∀ k ∈ gallery, similarity k probe ≤ s0) →
        (gallery.enumFrom n).foldl (scan_step probe) (i0, s0) = (i0, s0)) := by
  intro gallery
  induction gallery with
  | nil => intro n i0 s0; simp
  | cons k rest ih =>
    intro n i0 s0
    have hcons : (k :: rest).enumFrom n = (n, k) :: rest.enumFrom (n + 1) := by
      simp [List.enumFrom]
    rw [hcons, List.foldl_cons, scan_step_eval]
    by_cases hs : s0 < similarity k probe
    · rw [if_pos hs]
      obtain ⟨ih1, ih2, ih3, ih4⟩ := ih (n + 1) (n : ℤ) (similarity k probe)
      refine ⟨le_of_lt (lt_of_lt_of_le hs ih1), ?_, ?_, ?_⟩
      · intro k' hk'
        rcases List.mem_cons.mp hk' with h | h
        · subst h; exact ih1
        · exact ih2 k' h
      · intro _
        by_cases hrest : ∃ k' ∈ rest, similarity k probe < similarity k' probe
        · obtain ⟨hmem, hidx⟩ := ih3 hrest
          obtain ⟨k', hk', hk'lt⟩ := hrest
          have hgt : similarity k probe
              < ((rest.enumFrom (n + 1)).foldl (scan_step probe)
                  ((n : ℤ), similarity k probe)).2 :=
            lt_of_lt_of_le hk'lt (ih2 k' hk')
          have hne : ((rest.enumFrom (n + 1)).foldl (scan_step probe)
              ((n : ℤ), similarity k probe)).2 ≠ similarity k probe :=
            ne_of_gt hgt
          constructor
          · simp only [List.map_cons, List.mem_cons]
            right
            exact hmem
          · rw [hidx]
            simp only [List.map_cons]
            rw [List.indexOf_cons_ne _ (Ne.symm hne)]
            push_cast
            ring
        · push_neg at hrest
          have hstay := ih4 hrest
          rw [hstay]
          constructor
          · simp
          · simp [List.indexOf_cons_self]
      · intro hall
        exact absurd (hall k (List.mem_cons_self k rest)) (not_le.mpr hs)
    · rw [if_neg hs]
      have hks : similarity k probe ≤ s0 := not_lt.mp hs
      obtain ⟨ih1, ih2, ih3, ih4⟩ := ih (n + 1) i0 s0
      refine ⟨ih1, ?_, ?_, ?_⟩
      · intro k' hk'
        rcases List.mem_cons.mp hk' with h | h
        · subst h; exact le_trans hks ih1
        · exact ih2 k' h
      · intro hex
        obtain ⟨k', hk', hk's⟩ := hex
        rcases List.mem_cons.mp hk' with h | h
        · subst h; exact absurd hk's (not_lt.mpr hks)
        · obtain ⟨hmem, hidx⟩ := ih3 ⟨k', h, hk's⟩
          have hgt : similarity k probe
              < ((rest.enumFrom (n + 1)).foldl (scan_step probe) (i0, s0)).2 :=
            lt_of_le_of_lt hks (lt_of_lt_of_le hk's (ih2 k' h))
          have hne : ((rest.enumFrom (n + 1)).foldl (scan_step probe)
              (i0, s0)).2 ≠ similarity k probe := ne_of_gt hgt
          constructor
          · simp only [List.map_cons, List.mem_cons]
            right
            exact hmem
          · rw [hidx]
            simp only [List.map_cons]
            rw [List.indexOf_cons_ne _ (Ne.symm hne)]
            push_cast
            ring
      · intro hall
        exact ih4 fun k' hk' => hall k' (List.mem_cons_of_mem k hk')

theorem best_scan_eq_enumFrom (gallery : List (List ℚ)) (probe : List ℚ) :
    best_scan gallery probe
      = (gallery.enumFrom 0).foldl (scan_step probe) (-1, 0) := rfl

/-- When the scan's best similarity clears the (positive) tolerance it
is attained in the gallery, dominates every gallery similarity, and the
best index is the position of its first occurrence. -/
theorem best_scan_char (gallery : List (List ℚ)) (probe : List ℚ)
    (h : FACE_RECOGNITION_TOLERANCE ≤ (best_scan gallery probe).2) :
    (best_scan gallery probe).2 ∈ gallery.map (fun k => similarity k probe) ∧
    (∀ x ∈ gallery.map (fun k => similarity k probe),
      x ≤ (best_scan gallery probe).2) ∧
    (best_scan gallery probe).1
      = (((gallery.map fun k => similarity k probe).indexOf
          (best_scan gallery probe).2 : ℕ) : ℤ) := by
  obtain ⟨h1, h2, h3, h4⟩ := scan_go_spec probe gallery 0 (-1) 0
  rw [← best_scan_eq_enumFrom] at h1 h2 h3 h4
  have hex : ∃ k ∈ gallery, (0:ℚ) < similarity k probe := by
    by_contra hno
    push_neg at hno
    rw [h4 hno] at h
    norm_num [FACE_RECOGNITION_TOLERANCE] at h
  obtain ⟨hmem, hidx⟩ := h3 hex
  refine ⟨hmem, ?_, ?_⟩
  · intro x hx
    obtain ⟨k, hk, hkx⟩ := List.mem_map.mp hx
    rw [← hkx]
    exact h2 k hk
  · rw [hidx]
    ring

/-- When `m` is an attained maximum of the gallery similarities and is
positive, the scan returns `m` together with the index of its first
occurrence. -/
theorem best_scan_of_max (gallery : List (List ℚ)) (f : List ℚ) (m : ℚ)
    (hmem : m ∈ gallery.map (fun k => similarity k f))
    (hmax : ∀ x ∈ gallery.map (fun k => similarity k f), x ≤ m)
    (hpos : 0 < m) :
    best_scan gallery f
      = ((((gallery.map fun k => similarity k f).indexOf m : ℕ) : ℤ), m) := by
  obtain ⟨h1, h2, h3, h4⟩ := scan_go_spec f gallery 0 (-1) 0
  rw [← best_scan_eq_enumFrom] at h1 h2 h3 h4
  have hex : ∃ k ∈ gallery, (0:ℚ) < similarity k f := by
    obtain ⟨k, hk, hkm⟩ := List.mem_map.mp hmem
    exact ⟨k, hk, by rw [hkm]; exact hpos⟩
  obtain ⟨hmem', hidx'⟩ := h3 hex
  have hbm : (best_scan gallery f).2 = m := by
    refine le_antisymm (hmax _ hmem') ?_
    obtain ⟨k, hk, hkm⟩ := List.mem_map.mp hmem
    rw [← hkm]
    exact h2 k hk
  apply Prod.ext
  · rw [hidx', hbm]
    ring
  · exact hbm

/-- C4: `identify_face` returns a match iff the gallery is non-empty,
extraction produced a probe, and the best similarity over the full
linear scan reaches the tolerance; the match names the gallery entry at
the first position attaining the best similarity (first-encountered
wins on ties), its confidence is the best similarity and its reported
distance is `1 −` that similarity; otherwise the no-match sentinel
(`None`) is returned. -/
theorem identify_face_spec (gallery : List (List ℚ)) (ids : List ℤ)
    (probe? : Option (List ℚ)) (r : MatchResult) :
    identify_face gallery ids probe? = some r ↔
      gallery ≠ [] ∧ ∃ f, probe? = some f ∧ ∃ m,
        m ∈ gallery.map (fun k => similarity k f) ∧
        (∀ x ∈ gallery.map (fun k => similarity k f), x ≤ m) ∧
        FACE_RECOGNITION_TOLERANCE ≤ m ∧
        r = ⟨ids.getD ((gallery.map fun k => similarity k f).indexOf m) 0,
             m, 1 - m⟩ := by
  constructor
  · intro h
    unfold identify_face at h
    split at h
    · exact absurd h (by simp)
    · rename_i hg
      split at h
      · exact absurd h (by simp)
      · rename_i f
        dsimp only at h
        split at h
        · rename_i hcond
          obtain ⟨hge, htol⟩ := hcond
          obtain ⟨hmem, hmax, hidx⟩ := best_scan_char gallery f htol
          obtain rfl : r = ⟨ids.getD (best_scan gallery f).1.toNat 0,
              (best_scan gallery f).2, 1 - (best_scan gallery f).2⟩ :=
            (Option.some.inj h).symm
          refine ⟨hg, f, rfl, (best_scan gallery f).2, hmem, hmax, htol, ?_⟩
          rw [hidx]
          simp
        · exact absurd h (by simp)
  · rintro ⟨hg, f, rfl, m, hmem, hmax, htol, rfl⟩
    have hpos : (0:ℚ) < m :=
      lt_of_lt_of_le (by norm_num [FACE_RECOGNITION_TOLERANCE]) htol
    have hbs := best_scan_of_max gallery f m hmem hmax hpos
    unfold identify_face
    rw [if_neg hg]
    dsimp only
    rw [hbs]
    rw [if_pos ⟨Int.natCast_nonneg _, htol⟩]
    simp

theorem identify_face_spec_witness :
    identify_face [[(1:ℚ)]] [5] (some [(1:ℚ)])
      = some ⟨5, 10000000/10000001, 1 - 10000000/10000001⟩ := by
  have hsim : similarity [(1:ℚ)] [(1:ℚ)] = 10000000/10000001 := by
    norm_num [similarity, eps]
  refine (identify_face_spec [[(1:ℚ)]] [5] (some [(1:ℚ)])
      ⟨5, 10000000/10000001, 1 - 10000000/10000001⟩).mpr
    ⟨by simp, [(1:ℚ)], rfl, 10000000/10000001, ?_, ?_, ?_, ?_⟩
  · simp [hsim]
  · intro x hx
    simp [hsim] at hx
    rw [hx]
  · norm_num [FACE_RECOGNITION_TOLERANCE]
  · simp [hsim, List.indexOf_cons_self]

/-- Worked evaluation of `identify_face` on the one-entry gallery
`[[1]]` with the probe `[1]`: the self-similarity `10^7/(10^7+1)`
clears the 0.5 tolerance, so user 5 is matched. -/
theorem identify_singleton_one :
    identify_face [[(1:ℚ)]] [5] (some [(1:ℚ)])
      = some ⟨5, 10000000/10000001, 1 - 10000000/10000001⟩ := by
  have hsim : similarity [(1:ℚ)] [(1:ℚ)] = 10000000/10000001 := by
    norm_num [similarity, eps]
  have hmap : List.map (fun k => similarity k [(1:ℚ)]) [[(1:ℚ)]]
      = [10000000/10000001] := by
    simp only [List.map_cons, List.map_nil, hsim]
  have hbs := best_scan_of_max [[(1:ℚ)]] [(1:ℚ)] (10000000/10000001)
    (by rw [hmap]; exact List.mem_singleton.mpr rfl)
    (by intro x hx; rw [hmap] at hx; rw [List.mem_singleton.mp hx])
    (by norm_num)
  rw [hmap, List.indexOf_cons_self] at hbs
  unfold identify_face
  rw [if_neg (by simp)]
  dsimp only
  rw [hbs]
  rw [if_pos ⟨by norm_num, by norm_num [FACE_RECOGNITION_TOLERANCE]⟩]
  rfl

theorem sum_zipWith_min_le (k f : List ℚ) (hk : ∀ x ∈ k, 0 ≤ x) :
    (List.zipWith min k f).sum ≤ k.sum := by
  induction k generalizing f with
  | nil => simp
  | cons a t ih =>
    cases f with
    | nil =>
      simp only [List.zipWith_nil_right, List.sum_nil]
      exact List.sum_nonneg hk
    | cons b g =>
      simp only [List.zipWith_cons_cons, List.sum_cons]
      have h1 : min a b ≤ a := min_le_left a b
      have h2 := ih g (fun x hx => hk x (List.mem_cons_of_mem a hx))
      linarith

theorem similarity_le_one (k f : List ℚ) (hk : ∀ x ∈ k, 0 ≤ x) :
    similarity k f ≤ 1 := by
  unfold similarity
  rw [zipWith_min_self]
  have hsum : (0:ℚ) ≤ k.sum := List.sum_nonneg hk
  have hpos : (0:ℚ) < k.sum + eps := by unfold eps; linarith
  rw [div_le_one hpos]
  have := sum_zipWith_min_le k f hk
  unfold eps
  linarith

theorem getD_nonneg (l : List ℝ) (hl : ∀ x ∈ l, 0 ≤ x) :
    ∀ i : ℕ, 0 ≤ l.getD i 0 := by
  induction l with
  | nil => intro i; simp [List.getD]
  | cons a t ih =>
    intro i
    cases i with
    | zero => simpa using hl a (List.mem_cons_self a t)
    | succ j =>
      simp only [List.getD_cons_succ]
      exact ih (fun x hx => hl x (List.mem_cons_of_mem a hx)) j

theorem dlib_conf_le_one (bd : ℝ) (hbd : 0 ≤ bd) :
    max 0 (1 - bd / tolR) ≤ 1 := by
  apply max_le (by norm_num)
  have h : (0:ℝ) ≤ bd / tolR := div_nonneg hbd (by norm_num [tolR])
  linarith

/-- C9: every match returned by `identify_face` has confidence in
`[0, 1]`: the handcrafted histogram-intersection confidence (computed
over non-negative histogram vectors) and the dlib confidence
`max(0, 1 − distance/tolerance)` never leave the unit interval. -/
theorem match_confidence_in_unit_interval :
    (∀ gallery ids probe? r,
      (∀ v ∈ gallery, ∀ x ∈ v, (0:ℚ) ≤ x) →
      identify_face gallery ids probe? = some r →
      0 ≤ r.confidence ∧ r.confidence ≤ 1) ∧
    (∀ gallery ids probe? r,
      identify_face_dlib gallery ids probe? = some r →
      (0:ℝ) ≤ r.confidence ∧ r.confidence ≤ 1) := by
  constructor
  · intro gallery ids probe? r hnn h
    unfold identify_face at h
    split at h
    · exact absurd h (by simp)
    · split at h
      · exact absurd h (by simp)
      · rename_i f
        dsimp only at h
        split at h
        · rename_i hcond
          obtain ⟨hge, htol⟩ := hcond
          obtain ⟨hmem, hmax, hidx⟩ := best_scan_char gallery f htol
          obtain rfl : r = ⟨ids.getD (best_scan gallery f).1.toNat 0,
              (best_scan gallery f).2, 1 - (best_scan gallery f).2⟩ :=
            (Option.some.inj h).symm
          constructor
          · exact le_trans (by norm_num [FACE_RECOGNITION_TOLERANCE]) htol
          · obtain ⟨k, hk, hks⟩ := List.mem_map.mp hmem
            have hle := similarity_le_one k f (hnn k hk)
            show (best_scan gallery f).2 ≤ 1
            rw [← hks]
            exact hle
        · exact absurd h (by simp)
  · intro gallery ids probe? r h
    cases probe? with
    | none =>
      unfold identify_face_dlib at h
      split at h
      · exact absurd h (by simp)
      · dsimp only at h
        exact absurd h (by simp)
    | some f =>
      unfold identify_face_dlib at h
      split at h
      · exact absurd h (by simp)
      · dsimp only at h
        split at h
        · exact absurd h (by simp)
        · split at h
          · obtain rfl := (Option.some.inj h).symm
            refine ⟨le_max_left _ _, dlib_conf_le_one _ ?_⟩
            refine getD_nonneg _ ?_ _
            intro x hx
            obtain ⟨k, hk, hkx⟩ := List.mem_map.mp hx
            rw [← hkx]
            exact Real.sqrt_nonneg _
          · exact absurd h (by simp)

theorem match_confidence_in_unit_interval_witness :
    ((∀ v ∈ [[(1:ℚ)]], ∀ x ∈ v, (0:ℚ) ≤ x) ∧
      0 ≤ (10000000/10000001 : ℚ) ∧ (10000000/10000001 : ℚ) ≤ 1) := by
  have hnn : ∀ v ∈ [[(1:ℚ)]], ∀ x ∈ v, (0:ℚ) ≤ x := by
    intro v hv x hx
    simp at hv
    rw [hv] at hx
    simp at hx
    rw [hx]
    norm_num
  have h := (match_confidence_in_unit_interval.1 [[(1:ℚ)]] [5]
      (some [(1:ℚ)]) ⟨5, 10000000/10000001, 1 - 10000000/10000001⟩ hnn
      identify_singleton_one)
  exact ⟨hnn, h.1, h.2⟩

/-- C10 (implicit invariant): the two parallel gallery lists built by
`load_known_faces` always have equal length (entries are appended to
both together, after both are reset together), and whenever
`identify_face` returns a match the best index it reads from
`known_face_ids` is strictly below that common length, so the identity
lookup is never out of bounds. -/
theorem gallery_parallel_spec (prev : List (List ℚ) × List ℤ)
    (users : List (ℤ × List ℚ)) :
    (load_known_faces prev users).1.length
      = (load_known_faces prev users).2.length ∧
    (load_known_faces_dlib prev users).1.length
      = (load_known_faces_dlib prev users).2.length ∧
    ∀ probe r,
      identify_face (load_known_faces prev users).1
        (load_known_faces prev users).2 (some probe) = some r →
      (best_scan (load_known_faces prev users).1 probe).1.toNat
        < (load_known_faces prev users).2.length := by
  have h132 := load_foldl_eq 132 (by norm_num) users ([], [])
  have h128 := load_foldl_eq 128 (by norm_num) users ([], [])
  have hlen : (load_known_faces prev users).1.length
      = (load_known_faces prev users).2.length := by
    unfold load_known_faces
    rw [h132]
    simp
  have hlen2 : (load_known_faces_dlib prev users).1.length
      = (load_known_faces_dlib prev users).2.length := by
    unfold load_known_faces_dlib
    rw [h128]
    simp
  refine ⟨hlen, hlen2, ?_⟩
  intro probe r h
  unfold identify_face at h
  split at h
  · exact absurd h (by simp)
  · dsimp only at h
    split at h
    · rename_i hcond
      obtain ⟨hmem, hmax, hidx⟩ := best_scan_char _ probe hcond.2
      rw [hidx]
      simp only [Int.toNat_natCast]
      have hlt := List.indexOf_lt_length.mpr hmem
      rw [List.length_map] at hlt
      rw [← hlen]
      exact hlt
    · exact absurd h (by simp)

theorem gallery_parallel_spec_witness :
    (best_scan (load_known_faces ([], []) [(5, [(1:ℚ)] ++ List.replicate 131 0)]).1
        ([(1:ℚ)] ++ List.replicate 131 0)).1.toNat
      < (load_known_faces ([], []) [(5, [(1:ℚ)] ++ List.replicate 131 0)]).2.length := by
  have hload : load_known_faces ([], []) [(5, [(1:ℚ)] ++ List.replicate 131 0)]
      = ([[(1:ℚ)] ++ List.replicate 131 0], [5]) := by
    unfold load_known_faces
    simp
  have hsim : similarity ([(1:ℚ)] ++ List.replicate 131 0)
      ([(1:ℚ)] ++ List.replicate 131 0) = 10000000/10000001 := by
    rw [similarity_self]
    norm_num [eps]
  have hmap : List.map (fun k => similarity k ([(1:ℚ)] ++ List.replicate 131 0))
      [[(1:ℚ)] ++ List.replicate 131 0] = [10000000/10000001] := by
    simp only [List.map_cons, List.map_nil, hsim]
  have hid : identify_face (load_known_faces ([], []) [(5, [(1:ℚ)] ++ List.replicate 131 0)]).1
      (load_known_faces ([], []) [(5, [(1:ℚ)] ++ List.replicate 131 0)]).2
      (some ([(1:ℚ)] ++ List.replicate 131 0))
      = some ⟨5, 10000000/10000001, 1 - 10000000/10000001⟩ := by
    rw [hload]
    refine (identify_face_spec _ _ _ _).mpr
      ⟨by simp, _, rfl, 10000000/10000001, ?_, ?_, ?_, ?_⟩
    · rw [hmap]
      exact List.mem_singleton.mpr rfl
    · intro x hx
      rw [hmap] at hx
      rw [List.mem_singleton.mp hx]
    · norm_num [FACE_RECOGNITION_TOLERANCE]
    · rw [hmap, List.indexOf_cons_self]
      rfl
  exact (gallery_parallel_spec ([], []) [(5, [(1:ℚ)] ++ List.replicate 131 0)]).2.2
    ([(1:ℚ)] ++ List.replicate 131 0) ⟨5, 10000000/10000001, 1 - 10000000/10000001⟩ hid

/-- C8 (amended): once the probe encoding is produced, the duplicate
guard runs `identify_face` against the gallery as it stands before the
new vector is inserted (the insertion happens only on acceptance, so
self-match is impossible); the enrollment is rejected with a duplicate
error naming the conflicting prior registration iff the match's
confidence clears the stricter 0.7 bar *and* the matched user id still
resolves in the database — when the lookup fails, the code falls
through and the enrollment proceeds. -/
theorem register_user_guard_spec (gallery : List (List ℚ)) (ids : List ℤ)
    (lookup : ℤ → Option String) (enc : List ℚ) (newId : ℤ) :
    ((¬ ∃ m, identify_face gallery ids (some enc) = some m ∧
        (7:ℚ)/10 ≤ m.confidence ∧ (lookup m.userId).isSome) →
      register_user gallery ids lookup (some enc) newId
        = .ok (gallery ++ [enc], ids ++ [newId])) ∧
    (∀ m name, identify_face gallery ids (some enc) = some m →
      (7:ℚ)/10 ≤ m.confidence → lookup m.userId = some name →
      register_user gallery ids lookup (some enc) newId
        = .error ("This face is already registered as " ++ name)) := by
  constructor
  · intro hno
    have hguard : register_guard (identify_face gallery ids (some enc)) lookup
        = none := by
      cases hid : identify_face gallery ids (some enc) with
      | none => rfl
      | some m =>
        unfold register_guard
        dsimp only
        split
        · rename_i hconf
          cases hlk : lookup m.userId with
          | none => rfl
          | some name => exact absurd ⟨m, hid, hconf, by simp [hlk]⟩ hno
        · rfl
    simp only [register_user]
    rw [hguard]
  · intro m name hid hconf hlk
    have hguard : register_guard (identify_face gallery ids (some enc)) lookup
        = some name := by
      rw [hid]
      unfold register_guard
      dsimp only
      rw [if_pos hconf, hlk]
    simp only [register_user]
    rw [hguard]

theorem register_user_guard_spec_witness :
    register_user [[(1:ℚ)]] [5] (fun _ => some "Alice") (some [(1:ℚ)]) 9
      = .error ("This face is already registered as " ++ "Alice") :=
  (register_user_guard_spec [[(1:ℚ)]] [5] (fun _ => some "Alice")
      [(1:ℚ)] 9).2
    ⟨5, 10000000/10000001, 1 - 10000000/10000001⟩ "Alice"
    identify_singleton_one (by norm_num) rfl

/-- C8 counterexample: with the concrete gallery `[[1]]` (user 5), the
probe `[1]` matches user 5 with confidence `10^7/(10^7+1) ≥ 0.7`, yet
when the database lookup of user 5 fails the enrollment is *not*
rejected — `register_user` succeeds and inserts the new entry —
contradicting the claimed "rejected iff confidence ≥ 0.7". -/
theorem register_user_guard_cex :
    identify_face [[(1:ℚ)]] [5] (some [(1:ℚ)])
        = some ⟨5, 10000000/10000001, 1 - 10000000/10000001⟩ ∧
    (7:ℚ)/10 ≤ 10000000/10000001 ∧
    register_user [[(1:ℚ)]] [5] (fun _ => none) (some [(1:ℚ)]) 9
      = .ok ([[(1:ℚ)], [(1:ℚ)]], [5, 9]) := by
  refine ⟨identify_singleton_one, by norm_num, ?_⟩
  have hguard : register_guard
      (identify_face [[(1:ℚ)]] [5] (some [(1:ℚ)])) (fun _ => none) = none := by
    rw [identify_singleton_one]
    unfold register_guard
    dsimp only
    split <;> rfl
  simp only [register_user]
  rw [hguard]
  rfl

/-- Each pixel falls in exactly one histogram bin, so the bin counts of
any total binning of the 100×100 plane sum to 10000. -/
theorem count_sum_eq {β : Type} [Fintype β] [DecidableEq β]
    (f : Fin 100 × Fin 100 → β) :
    ∑ b : β, (∑ p : Fin 100 × Fin 100, if f p = b then (1:ℕ) else 0)
      = 10000 := by
  rw [Finset.sum_comm]
  have h1 : ∀ p : Fin 100 × Fin 100,
      (∑ b : β, if f p = b then (1:ℕ) else 0) = 1 := by
    intro p
    rw [Finset.sum_ite_eq]
    simp
  rw [Finset.sum_congr rfl fun p _ => h1 p]
  rw [Finset.sum_const, smul_eq_mul, mul_one, Finset.card_univ,
    Fintype.card_prod, Fintype.card_fin]

theorem count_hist_bound : |(10000 : ℚ)/(10000 + eps) - 1| ≤ 1/100000 := by
  rw [abs_le]
  constructor <;> norm_num [eps]

theorem lbp_norm_sum (g : Gray) :
    ∑ b : Fin 64, lbpNorm g b = 10000 / (10000 + eps) := by
  have htot : lbpTotal g = 10000 := by
    unfold lbpTotal lbpCount
    exact count_sum_eq _
  unfold lbpNorm
  rw [← Finset.sum_div, ← Nat.cast_sum,
    show ∑ b : Fin 64, lbpCount g b = lbpTotal g from rfl, htot]
  norm_num

theorem gray_norm_sum (g : Gray) :
    ∑ b : Fin 32, grayNorm g b = 10000 / (10000 + eps) := by
  have htot : grayTotal g = 10000 := by
    unfold grayTotal grayCount
    exact count_sum_eq _
  unfold grayNorm
  rw [← Finset.sum_div, ← Nat.cast_sum,
    show ∑ b : Fin 32, grayCount g b = grayTotal g from rfl, htot]
  norm_num

theorem hue_norm_sum (hu : Hue) :
    ∑ b : Fin 18, hueNorm hu b = 10000 / (10000 + eps) := by
  have htot : hueTotal hu = 10000 := by
    unfold hueTotal hueCount
    exact count_sum_eq _
  unfold hueNorm
  rw [← Finset.sum_div, ← Nat.cast_sum,
    show ∑ b : Fin 18, hueCount hu b = hueTotal hu from rfl, htot]
  norm_num

theorem hogTotal_eq (g : Gray) :
    hogTotal g = ∑ p : Fin 100 × Fin 100, gradMag g p.1 p.2 := by
  unfold hogTotal hogWeight
  rw [Finset.sum_comm]
  refine Finset.sum_congr rfl fun p _ => ?_
  rw [Finset.sum_ite_eq]
  simp

theorem hog_norm_sum (g : Gray) :
    ∑ b : Fin 18, hogNorm g b
      = hogTotal g / (hogTotal g + (1/10000000 : ℝ)) := by
  unfold hogNorm
  rw [← Finset.sum_div,
    show ∑ b : Fin 18, hogWeight g b = hogTotal g from rfl]

theorem gradMag_nonneg (g : Gray) (i j : ℕ) : 0 ≤ gradMag g i j :=
  Real.sqrt_nonneg _

/-- When every Sobel gradient of the plane vanishes (e.g. a constant
crop), every orientation-bin weight is 0 and the normalised gradient
histogram sums to 0, not 1. -/
theorem hog_sum_zero (g : Gray)
    (hz : ∀ p : Fin 100 × Fin 100,
      sobelGx g p.1 p.2 = 0 ∧ sobelGy g p.1 p.2 = 0) :
    ∑ b : Fin 18, hogNorm g b = 0 := by
  have hmag : ∀ p : Fin 100 × Fin 100, gradMag g p.1 p.2 = 0 := by
    intro p
    unfold gradMag
    rw [(hz p).1, (hz p).2]
    norm_num
  refine Finset.sum_eq_zero fun b _ => ?_
  unfold hogNorm
  have hw : hogWeight g b = 0 := by
    unfold hogWeight
    refine Finset.sum_eq_zero fun p _ => ?_
    rw [hmag p]
    simp
  rw [hw]
  simp

theorem int_one_le_sq (a : ℤ) (ha : a ≠ 0) : (1:ℤ) ≤ a^2 := by
  rcases lt_or_gt_of_ne ha with hlt | hgt
  · have h1 : a ≤ -1 := by omega
    nlinarith
  · have h1 : 1 ≤ a := by omega
    nlinarith

/-- A nonzero integer Sobel gradient has magnitude at least 1. -/
theorem gradMag_ge_one (g : Gray) (i j : ℕ)
    (hnz : ¬(sobelGx g i j = 0 ∧ sobelGy g i j = 0)) :
    (1:ℝ) ≤ gradMag g i j := by
  unfold gradMag
  rw [show (1:ℝ) = Real.sqrt 1 from Real.sqrt_one.symm]
  apply Real.sqrt_le_sqrt
  have hz : (1:ℤ) ≤ (sobelGx g i j)^2 + (sobelGy g i j)^2 := by
    rcases not_and_or.mp hnz with hx | hy
    · have := int_one_le_sq _ hx
      nlinarith [sq_nonneg (sobelGy g i j)]
    · have := int_one_le_sq _ hy
      nlinarith [sq_nonneg (sobelGx g i j)]
  exact_mod_cast hz

set_option maxRecDepth 8000 in
theorem hog_total_ge_one (g : Gray)
    (hp : ∃ p : Fin 100 × Fin 100,
      ¬(sobelGx g p.1 p.2 = 0 ∧ sobelGy g p.1 p.2 = 0)) :
    (1:ℝ) ≤ hogTotal g := by
  obtain ⟨p, hpnz⟩ := hp
  rw [hogTotal_eq]
  calc (1:ℝ) ≤ gradMag g p.1 p.2 := gradMag_ge_one _ _ _ hpnz
  _ ≤ ∑ q : Fin 100 × Fin 100, gradMag g q.1 q.2 :=
      Finset.single_le_sum (fun q _ => gradMag_nonneg g q.1 q.2)
        (Finset.mem_univ p)

/-- When some pixel has a nonzero Sobel gradient the total magnitude is
at least 1 and the normalised gradient histogram sums to
`S/(S + 1e-7)`, within `1e-5` of 1. -/
theorem hog_sum_near_one (g : Gray)
    (hp : ∃ p : Fin 100 × Fin 100,
      ¬(sobelGx g p.1 p.2 = 0 ∧ sobelGy g p.1 p.2 = 0)) :
    |(∑ b : Fin 18, hogNorm g b) - 1| ≤ 1/100000 := by
  rw [hog_norm_sum]
  have h1 : (1:ℝ) ≤ hogTotal g := hog_total_ge_one g hp
  have hpos : (0:ℝ) < hogTotal g + 1/10000000 := by linarith
  rw [abs_le]
  constructor
  · have heq : hogTotal g / (hogTotal g + 1/10000000) - 1
        = -((1/10000000) / (hogTotal g + 1/10000000)) := by
      field_simp
    rw [heq]
    have hb : (1/10000000 : ℝ)/(hogTotal g + 1/10000000) ≤ 1/100000 := by
      rw [div_le_iff₀ hpos]
      nlinarith
    linarith
  · have hle : hogTotal g / (hogTotal g + 1/10000000) ≤ 1 := by
      rw [div_le_one hpos]
      linarith
    linarith

theorem descriptor_length (g : Gray) (hu : Hue) :
    (descriptor g hu).length = 132 := by
  unfold descriptor
  simp

/-- C1 (amended): for every crop that survives the clamping and size
checks, `extract_face_features` returns the 132-entry concatenation of
the four histograms in the fixed order; the LBP, grayscale and hue
histograms each sum to `10000/(10000 + 1e-7)`, within `1e-5` of 1; the
gradient-orientation histogram sums to within `1e-5` of 1 whenever some
pixel of the normalised gray plane has a nonzero Sobel gradient, but
sums to 0 (the weight mass vanishes) when every Sobel gradient is zero,
as on a constant crop. -/
theorem extract_face_features_spec (pipe : ℤ → ℤ → ℤ → ℤ → Gray × Hue)
    (h w : ℕ) (loc : ℤ × ℤ × ℤ × ℤ) (d : List ℝ)
    (hd : extract_face_features pipe h w loc = some d) :
    d.length = 132 ∧
    ∃ g hu, d = descriptor g hu ∧
      |(∑ b : Fin 64, lbpNorm g b) - 1| ≤ 1/100000 ∧
      |(∑ b : Fin 32, grayNorm g b) - 1| ≤ 1/100000 ∧
      |(∑ b : Fin 18, hueNorm hu b) - 1| ≤ 1/100000 ∧
      ((∃ p : Fin 100 × Fin 100,
          ¬(sobelGx g p.1 p.2 = 0 ∧ sobelGy g p.1 p.2 = 0)) →
        |(∑ b : Fin 18, hogNorm g b) - 1| ≤ 1/100000) ∧
      ((∀ p : Fin 100 × Fin 100,
          sobelGx g p.1 p.2 = 0 ∧ sobelGy g p.1 p.2 = 0) →
        (∑ b : Fin 18, hogNorm g b) = 0) := by
  unfold extract_face_features at hd
  dsimp only at hd
  split at hd
  · exact absurd hd (by simp)
  · split at hd
    · exact absurd hd (by simp)
    · obtain rfl := (Option.some.inj hd).symm
      refine ⟨descriptor_length _ _, _, _, rfl, ?_, ?_, ?_,
        fun hp => hog_sum_near_one _ hp, fun hz => hog_sum_zero _ hz⟩
      · rw [lbp_norm_sum]
        exact count_hist_bound
      · rw [gray_norm_sum]
        exact count_hist_bound
      · rw [hue_norm_sum]
        exact count_hist_bound

theorem extract_const_eval :
    extract_face_features constPipe 100 100 (0, 100, 100, 0)
      = some (descriptor constGray constHue) := by
  unfold extract_face_features constPipe
  dsimp only
  rw [if_neg (by decide), if_neg (by decide)]

theorem sobel_const_zero (p : Fin 100 × Fin 100) :
    sobelGx constGray p.1 p.2 = 0 ∧ sobelGy constGray p.1 p.2 = 0 := by
  constructor <;>
    simp [sobelGx, sobelGy, px, constGray]

/-- C1 counterexample: the all-black 100×100 crop at location
`(0, 100, 100, 0)` in a 100×100 image survives every size check, yet
its gradient-orientation sub-histogram sums to 0 — not to `1 ± 1e-5` as
the claim asserts for every surviving crop — because all Sobel
gradients vanish and the code divides the all-zero weight mass by
`0 + 1e-7`. -/
theorem extract_face_features_cex :
    extract_face_features constPipe 100 100 (0, 100, 100, 0)
      = some (descriptor constGray constHue) ∧
    (∑ b : Fin 18, hogNorm constGray b) = 0 ∧
    ¬ |(∑ b : Fin 18, hogNorm constGray b) - 1| ≤ 1/100000 := by
  have hz := hog_sum_zero constGray sobel_const_zero
  refine ⟨extract_const_eval, hz, ?_⟩
  rw [hz]
  norm_num

theorem extract_face_features_spec_witness :
    extract_face_features constPipe 100 100 (0, 100, 100, 0)
      = some (descriptor constGray constHue) ∧
    (descriptor constGray constHue).length = 132 :=
  ⟨extract_const_eval,
   (extract_face_features_spec constPipe 100 100 (0, 100, 100, 0)
     (descriptor constGray constHue) extract_const_eval).1⟩

end FacePass
